import Mathlib

/-!
The filter vf_imagebul: frames are dropped when they match a stored template.

A shallow embedding of `libavfilter/vf_imagebul.c`: the template loader
(`load_templates`, `init`) and the per-frame decision (`filter_frame`).

The file calls into three libraries whose code is outside the repository
source that is embedded here:

* the C library (`strtok`), modelled below on character lists;
* OpenCV (`cv::imread`, `cv::cvtColor`, `cv::matchTemplate`, `cv::minMaxLoc`),
  taken as a parameter `OpenCV R` so that every theorem holds whatever these
  calls compute; a call that raises a `cv::Exception` is `none`;
* the filter graph (`av_frame_unref`, `ff_filter_frame`), recorded as a trace
  of host-visible events.
-/

namespace ImageBul

/-! ## Values -/

/-- The values of a C `double`, as far as comparisons can tell them apart:
not-a-number, the two infinities, and the finite values (every finite double
is a rational; the two zeros compare equal). -/
inductive F64 where
  | nan
  | negInf
  | fin (q : ℚ)
  | posInf
deriving DecidableEq

/-- The C comparison `a <= b` on doubles: false as soon as one side is NaN. -/
def F64.le : F64 → F64 → Bool
  | .nan, _ => false
  | _, .nan => false
  | .negInf, _ => true
  | _, .posInf => true
  | .fin a, .fin b => decide (a ≤ b)
  | _, _ => false

/-- The C comparison `a >= b` on doubles. -/
def F64.ge (a b : F64) : Bool := F64.le b a

/-- The C comparison `a < b` on doubles. -/
def F64.lt (a b : F64) : Bool := F64.le a b && !F64.le b a

/-- A `cv::Mat` header: its size, channel count, row stride in bytes and pixel
storage (`data = none` is the null data pointer of a default-constructed matrix). -/
structure Mat where
  rows : Nat
  cols : Nat
  channels : Nat
  step : Nat
  data : Option (List Nat)
deriving DecidableEq

/-- `cv::Mat::total()`: the number of pixels. -/
def Mat.total (m : Mat) : Nat := m.rows * m.cols

/-- `cv::Mat::empty()`: `data == 0 || total() == 0`. -/
def Mat.empty (m : Mat) : Bool := m.data.isNone || m.total == 0

/-- The fields of an `AVFrame` that `filter_frame` reads. -/
structure AVFrame where
  width : Nat
  height : Nat
  linesize : Nat
  data : List Nat
deriving DecidableEq

/-- The OpenCV calls made by the filter. `R` is the type of the correlation
surface written by `cv::matchTemplate`; `none` is a raised `cv::Exception`. -/
structure OpenCV (R : Type) where
  /-- `cv::imread(path, cv::IMREAD_GRAYSCALE)`; an unreadable file gives an empty matrix. -/
  imread : List Char → Mat
  /-- `cv::cvtColor(img, gray, cv::COLOR_BGR2GRAY)`. -/
  cvtColor : Mat → Option Mat
  /-- `cv::matchTemplate(gray, templ, result, cv::TM_CCOEFF_NORMED)`. -/
  matchTemplate : Mat → Mat → Option R
  /-- `cv::minMaxLoc(result, &minVal, &maxVal)`, giving `(minVal, maxVal)`. -/
  minMaxLoc : R → Option (F64 × F64)

/-- The downstream link `inlink->dst->outputs[0]`: the code `ff_filter_frame`
returns for a frame handed to it. -/
structure Host where
  ff_filter_frame : AVFrame → Int

/-- What the host sees done to a frame. -/
inductive HostEvent where
  | unref (frame : AVFrame)
  | forward (frame : AVFrame)
deriving DecidableEq

/-- The result of one call of `filter_frame`: the returned code (`none` when a
`cv::Exception` leaves the function instead) and the host events, in order. -/
structure Outcome where
  ret : Option Int
  effects : List HostEvent
deriving DecidableEq

/-- The private context of the filter (`ImageBulFilterContext`). -/
structure ImageBulFilterContext where
  templates : List Mat
  match_threshold : F64
  template_paths : List Char
deriving DecidableEq

/-- The errno value `EINVAL` (Linux). -/
def EINVAL : Int := 22

/-- The errno value `EAGAIN` (Linux). -/
def EAGAIN : Int := 11

/-- The macro `AVERROR(e)` of libavutil: `-(e)`. -/
def AVERROR (e : Int) : Int := -e

/-! ## The C library: `strtok` -/

/-- `strspn(s, delim)`: length of the leading run of delimiter characters. -/
def strspn (s delim : List Char) : Nat :=
  (s.takeWhile (fun c => delim.contains c)).length

/-- `strcspn(s, delim)`: length of the leading run of non-delimiter characters. -/
def strcspn (s delim : List Char) : Nat :=
  (s.takeWhile (fun c => !delim.contains c)).length

/-- One call of `strtok`, on the text `s` left to scan: the token returned
(`none` for `NULL`) and the text left for the next call `strtok(NULL, delim)`.
Leading delimiters are skipped, the token runs up to the next delimiter, and
that delimiter is consumed. -/
def strtok (s delim : List Char) : Option (List Char) × List Char :=
  let s1 := s.drop (strspn s delim)
  if s1.isEmpty then (none, s1)
  else
    let e := s1.drop (strcspn s1 delim)
    if e.isEmpty then (some s1, e)
    else (some (s1.take (strcspn s1 delim)), e.drop 1)

/-! ## `load_templates` and `init` -/

/-- The loop `while (token) { ... token = strtok(NULL, ","); }` of
`load_templates`, with the current token, the text left to scan and the
templates pushed so far. `none` only when the fuel runs out. -/
def load_templates_loop {R : Type} (cv : OpenCV R) :
    Nat → Option (List Char) → List Char → List Mat → Option (Int × List Mat)
  | 0, _, _, _ => none
  | _ + 1, none, _, templates => some (0, templates)
  | fuel + 1, some token, olds, templates =>
      let templ := cv.imread token
      if templ.empty then some (AVERROR EINVAL, templates)
      else
        let next := strtok olds [',']
        load_templates_loop cv fuel next.1 next.2 (templates ++ [templ])

/-- `load_templates`: the returned code and the context afterwards. -/
def load_templates {R : Type} (cv : OpenCV R) (s : ImageBulFilterContext) :
    Option (Int × ImageBulFilterContext) :=
  let first := strtok s.template_paths [',']
  (load_templates_loop cv (s.template_paths.length + 1) first.1 first.2 s.templates).map
    (fun r => (r.1, { s with templates := r.2 }))

/-- `init`: fails with `AVERROR(EINVAL)` when `load_templates` returns a negative code. -/
def init {R : Type} (cv : OpenCV R) (s : ImageBulFilterContext) :
    Option (Int × ImageBulFilterContext) :=
  match load_templates cv s with
  | none => none
  | some (r, s1) => if r < 0 then some (AVERROR EINVAL, s1) else some (0, s1)

/-! ## `filter_frame` -/

/-- `cv::Mat img(frame->height, frame->width, CV_8UC3, frame->data[0], frame->linesize[0])`. -/
def frameMat (frame : AVFrame) : Mat :=
  ⟨frame.height, frame.width, 3, frame.linesize, some frame.data⟩

/-- The value `maxVal` computed for one template: `cv::matchTemplate` followed by
`cv::minMaxLoc`; `none` when either call raises. -/
def maxValOf {R : Type} (cv : OpenCV R) (gray templ : Mat) : Option F64 :=
  match cv.matchTemplate gray templ with
  | none => none
  | some result =>
    match cv.minMaxLoc result with
    | none => none
    | some (_, maxVal) => some maxVal

/-- The loop `for (const auto& templ : s->templates)` of `filter_frame` and the
final `return ff_filter_frame(...)`. -/
def filter_frame_loop {R : Type} (cv : OpenCV R) (host : Host) (threshold : F64)
    (frame : AVFrame) (gray : Mat) : List Mat → Outcome
  | [] => ⟨some (host.ff_filter_frame frame), [HostEvent.forward frame]⟩
  | templ :: rest =>
    match maxValOf cv gray templ with
    | none => ⟨none, []⟩
    | some maxVal =>
      if F64.ge maxVal threshold then ⟨some (AVERROR EAGAIN), [HostEvent.unref frame]⟩
      else filter_frame_loop cv host threshold frame gray rest

/-- `filter_frame`. -/
def filter_frame {R : Type} (cv : OpenCV R) (host : Host) (s : ImageBulFilterContext)
    (frame : AVFrame) : Outcome :=
  match cv.cvtColor (frameMat frame) with
  | none => ⟨none, []⟩
  | some gray => filter_frame_loop cv host s.match_threshold frame gray s.templates

/-- The outcome ADMIT: the frame is forwarded to `outputs[0]` and the
downstream code returned; nothing is released. -/
def admitOutcome (host : Host) (frame : AVFrame) : Outcome :=
  ⟨some (host.ff_filter_frame frame), [HostEvent.forward frame]⟩

/-- The outcome DROP: the frame is released and `AVERROR(EAGAIN)` returned;
nothing is forwarded. -/
def dropOutcome (frame : AVFrame) : Outcome :=
  ⟨some (AVERROR EAGAIN), [HostEvent.unref frame]⟩

/-- The outcome when a `cv::Exception` leaves `filter_frame`: no code is
returned and the frame is neither forwarded nor released. -/
def raisedOutcome : Outcome := ⟨none, []⟩

/-! ## The configuration string, as the specification reads it -/

/-- The comma-separated fields of a configuration string: the text between
consecutive commas, empty fields included (`"a,,b"` has the fields `a`, the
empty field, and `b`). -/
def fields : List Char → List (List Char)
  | [] => [[]]
  | c :: cs =>
    if c = ',' then [] :: fields cs
    else
      match fields cs with
      | [] => [[c]]
      | f :: fs => (c :: f) :: fs

/-- The identifiers of a configuration string: its non-empty fields, in order. -/
def identifiers (paths : List Char) : List (List Char) :=
  (fields paths).filter (fun f => !f.isEmpty)

/-- Loading a list of identifiers one after the other onto the templates
already stored: stop with `AVERROR(EINVAL)` at the first one whose image is
empty, else return 0. -/
def loadAll {R : Type} (cv : OpenCV R) : List (List Char) → List Mat → Int × List Mat
  | [], templates => (0, templates)
  | id :: ids, templates =>
    if (cv.imread id).empty then (AVERROR EINVAL, templates)
    else loadAll cv ids (templates ++ [cv.imread id])

/-! ## A concrete environment for examples

A small stand-in for OpenCV, used only to evaluate the filter on concrete
inputs. Its scorer gives 1 at a placement where the window equals a
non-uniform template and 0 elsewhere; like `cv::matchTemplate` it raises when
the template exceeds the image in one dimension only and swaps the two when
it exceeds it in both. -/

/-- A 2x2 checkerboard template. -/
def demoTemplA : Mat := ⟨2, 2, 1, 2, some [0, 255, 255, 0]⟩

/-- A 1x3 template, wider than a 2x2 frame. -/
def demoTemplWide : Mat := ⟨1, 3, 1, 3, some [10, 20, 30]⟩

/-- A 1x1 template. -/
def demoTemplDot : Mat := ⟨1, 1, 1, 1, some [7]⟩

/-- A 2x2 frame of grey BGR pixels showing the checkerboard of `demoTemplA`. -/
def demoFrame : AVFrame :=
  ⟨2, 2, 6, [0, 0, 0, 255, 255, 255, 255, 255, 255, 0, 0, 0]⟩

/-- The files of the example: `a`, `b` and `w` hold images, every other path is unreadable. -/
def demoImread (path : List Char) : Mat :=
  if path = ['a'] then demoTemplA
  else if path = ['b'] then demoTemplDot
  else if path = ['w'] then demoTemplWide
  else ⟨0, 0, 1, 0, none⟩

/-- Luma of packed BGR bytes, with the 14-bit fixed-point weights of the 8-bit conversion. -/
def demoLuma : List Nat → List Nat
  | b :: g :: r :: rest => (b * 1868 + g * 9617 + r * 4899 + 8192) / 16384 :: demoLuma rest
  | _ => []

/-- Grey conversion of the example, for rows stored without padding: raises on
an empty image. -/
def demoCvtColor (m : Mat) : Option Mat :=
  if m.empty then none else some ⟨m.rows, m.cols, 1, m.cols, m.data.map demoLuma⟩

/-- The `h x w` window of `img` whose top-left corner is at row `y`, column `x`. -/
def demoWindow (img : Mat) (y x h w : Nat) : List Nat :=
  (List.range h).flatMap (fun r => ((img.data.getD []).drop ((y + r) * img.cols + x)).take w)

/-- Whether all pixels of a list are equal. -/
def uniformPixels : List Nat → Bool
  | [] => true
  | p :: ps => ps.all (fun q => q == p)

/-- Whether an image has uniform (zero-variance) intensity. -/
def Mat.uniform (m : Mat) : Bool := uniformPixels (m.data.getD [])

/-- The correlation surface of the example scorer, one value for each placement. -/
def demoSurface (img templ : Mat) : List F64 :=
  (List.range (img.rows - templ.rows + 1)).flatMap (fun y =>
    (List.range (img.cols - templ.cols + 1)).map (fun x =>
      if demoWindow img y x templ.rows templ.cols = templ.data.getD []
          ∧ uniformPixels (templ.data.getD []) = false
      then F64.fin 1 else F64.fin 0))

/-- Template matching of the example. -/
def demoMatchTemplate (img templ : Mat) : Option (List F64) :=
  if img.rows < templ.rows ∨ img.cols < templ.cols then
    if img.rows ≤ templ.rows ∧ img.cols ≤ templ.cols then some (demoSurface templ img)
    else none
  else some (demoSurface img templ)

/-- Minimum and maximum of a surface; raises on an empty one. -/
def demoMinMaxLoc : List F64 → Option (F64 × F64)
  | [] => none
  | v :: vs =>
    some (vs.foldl (fun m x => if F64.le x m then x else m) v,
          vs.foldl (fun m x => if F64.le m x then x else m) v)

/-- The grey view of `demoFrame`. -/
def demoGray : Mat := ⟨2, 2, 1, 2, some [0, 255, 255, 0]⟩

/-- The example environment. -/
def demoCv : OpenCV (List F64) :=
  ⟨demoImread, demoCvtColor, demoMatchTemplate, demoMinMaxLoc⟩

/-- A 3x3 template, larger than a 2x2 frame in both dimensions. -/
def demoTemplBig : Mat := ⟨3, 3, 1, 3, some [1, 2, 3, 4, 5, 6, 7, 8, 9]⟩

/-- A 1x1 template of uniform intensity showing a pixel of `demoFrame`. -/
def demoTemplFlat : Mat := ⟨1, 1, 1, 1, some [255]⟩

/-- The correlation surface of a scorer without any zero-variance test: 1 at
a placement where the window equals the template, 0 elsewhere. -/
def plainSurface (img templ : Mat) : List F64 :=
  (List.range (img.rows - templ.rows + 1)).flatMap (fun y =>
    (List.range (img.cols - templ.cols + 1)).map (fun x =>
      if demoWindow img y x templ.rows templ.cols = templ.data.getD []
      then F64.fin 1 else F64.fin 0))

/-- Template matching without any zero-variance test. -/
def plainMatchTemplate (img templ : Mat) : Option (List F64) :=
  if img.rows < templ.rows ∨ img.cols < templ.cols then
    if img.rows ≤ templ.rows ∧ img.cols ≤ templ.cols then some (plainSurface templ img)
    else none
  else some (plainSurface img templ)

/-- An environment whose scorer has no zero-variance test. -/
def plainCv : OpenCV (List F64) :=
  ⟨demoImread, demoCvtColor, plainMatchTemplate, demoMinMaxLoc⟩

/-- The example downstream link: it accepts every frame. -/
def demoHost : Host := ⟨fun _ => 0⟩

/-- The double 0.5. -/
def oneHalf : ℚ := ⟨1, 2, by decide, by decide⟩

/-- Whether the best score of a template is computed and reaches the threshold
(the test `maxVal >= s->match_threshold`). -/
def reaches {R : Type} (cv : OpenCV R) (gray : Mat) (threshold : F64) (templ : Mat) : Bool :=
  match maxValOf cv gray templ with
  | none => false
  | some maxVal => F64.ge maxVal threshold

/-- What `load_templates` leaves to its caller: the returned code and the store. -/
def loaded {R : Type} (cv : OpenCV R) (s : ImageBulFilterContext) : Option (Int × List Mat) :=
  (load_templates cv s).map (fun r => (r.1, r.2.templates))

/-- A context before `init`: no template loaded yet. -/
def demoCtx (threshold : F64) (paths : List Char) : ImageBulFilterContext :=
  ⟨[], threshold, paths⟩

/-! ## The loader against the identifiers of the configuration string -/

theorem drop_length_takeWhile (p : Char → Bool) (s : List Char) :
    s.drop (s.takeWhile p).length = s.dropWhile p := by
  induction s with
  | nil => rfl
  | cons c cs ih =>
    by_cases h : p c = true
    · simp [List.takeWhile_cons, List.dropWhile_cons, h, ih]
    · simp [List.takeWhile_cons, List.dropWhile_cons, h]

theorem take_length_takeWhile (p : Char → Bool) (s : List Char) :
    s.take (s.takeWhile p).length = s.takeWhile p := by
  induction s with
  | nil => rfl
  | cons c cs ih =>
    by_cases h : p c = true
    · simp [List.takeWhile_cons, h, ih]
    · simp [List.takeWhile_cons, h]

theorem strtok_eq (s : List Char) :
    strtok s [','] =
      if s.dropWhile (fun c => decide (c = ',')) = [] then (none, [])
      else
        (some ((s.dropWhile (fun c => decide (c = ','))).takeWhile (fun c => !decide (c = ','))),
          (((s.dropWhile (fun c => decide (c = ','))).dropWhile
            (fun c => !decide (c = ','))).drop 1)) := by
  have hp : (fun c : Char => [','].contains c) = (fun c => decide (c = ',')) := by
    funext c; simp
  have hq : (fun c : Char => !([','].contains c)) = (fun c => !decide (c = ',')) := by
    funext c; simp
  unfold strtok strspn strcspn
  rw [hp, hq]
  simp only [drop_length_takeWhile, take_length_takeWhile]
  by_cases h1 : s.dropWhile (fun c => decide (c = ',')) = []
  · simp [h1]
  · simp only [h1, List.isEmpty_eq_true, if_false]
    by_cases he : (s.dropWhile (fun c => decide (c = ','))).dropWhile
        (fun c => !decide (c = ',')) = []
    · have hs := List.takeWhile_append_dropWhile (fun c => !decide (c = ','))
        (s.dropWhile (fun c => decide (c = ',')))
      rw [he, List.append_nil] at hs
      simp only [he, if_true, hs, List.drop_nil]
    · simp only [he, if_false]

theorem strtok_nil : strtok [] [','] = (none, []) := by
  rw [strtok_eq]; rfl

theorem strtok_comma (s : List Char) : strtok (',' :: s) [','] = strtok s [','] := by
  rw [strtok_eq, strtok_eq]; simp [List.dropWhile_cons]

theorem strtok_char (c : Char) (s : List Char) (h : c ≠ ',') :
    strtok (c :: s) [','] =
      (some (c :: s.takeWhile (fun c => !decide (c = ','))),
        (s.dropWhile (fun c => !decide (c = ','))).drop 1) := by
  rw [strtok_eq]; simp [List.dropWhile_cons, List.takeWhile_cons, h]

theorem fields_ne_nil (s : List Char) : fields s ≠ [] := by
  cases s with
  | nil => simp [fields]
  | cons c cs =>
    unfold fields
    split
    · simp
    · split <;> simp

theorem fields_split (s : List Char) :
    fields s = s.takeWhile (fun c => !decide (c = ',')) ::
      (match s.dropWhile (fun c => !decide (c = ',')) with
        | [] => []
        | _ :: r => fields r) := by
  induction s with
  | nil => rfl
  | cons c cs ih =>
    by_cases h : c = ','
    · subst h
      simp [fields, List.takeWhile_cons, List.dropWhile_cons]
    · rw [fields, if_neg h, ih]
      simp [List.takeWhile_cons, List.dropWhile_cons, h]

theorem identifiers_nil : identifiers [] = [] := by
  simp [identifiers, fields]

theorem identifiers_comma (s : List Char) : identifiers (',' :: s) = identifiers s := by
  simp [identifiers, fields]

theorem identifiers_char (c : Char) (s : List Char) (h : c ≠ ',') :
    identifiers (c :: s) =
      (c :: s.takeWhile (fun c => !decide (c = ','))) ::
        identifiers ((s.dropWhile (fun c => !decide (c = ','))).drop 1) := by
  have hf : fields (c :: s) = (c :: s.takeWhile (fun c => !decide (c = ','))) ::
      (match s.dropWhile (fun c => !decide (c = ',')) with
        | [] => []
        | _ :: r => fields r) := by
    rw [fields_split (c :: s)]
    simp [List.takeWhile_cons, List.dropWhile_cons, h]
  unfold identifiers
  rw [hf]
  cases hd : s.dropWhile (fun c => !decide (c = ',')) with
  | nil => simp [fields]
  | cons d r => simp

theorem length_drop_dropWhile_le (p : Char → Bool) (s : List Char) :
    ((s.dropWhile p).drop 1).length ≤ s.length := by
  have h := List.takeWhile_append_dropWhile p s
  have h2 : (s.takeWhile p).length + (s.dropWhile p).length = s.length := by
    have h3 := congrArg List.length h
    rwa [List.length_append] at h3
  simp only [List.length_drop]
  omega

theorem load_templates_loop_eq {R : Type} (cv : OpenCV R) :
    ∀ (n : Nat) (s : List Char), s.length = n → ∀ (fuel : Nat) (acc : List Mat), s.length < fuel →
      load_templates_loop cv fuel (strtok s [',']).1 (strtok s [',']).2 acc =
        some (loadAll cv (identifiers s) acc) := by
  intro n
  induction n using Nat.strong_induction_on with
  | _ n ih =>
    intro s hn fuel acc hfuel
    cases s with
    | nil =>
      cases fuel with
      | zero => simp at hfuel
      | succ f => simp [strtok_nil, identifiers_nil, load_templates_loop, loadAll]
    | cons c cs =>
      by_cases hc : c = ','
      · subst hc
        rw [strtok_comma, identifiers_comma]
        have hlen : cs.length < n := by simp at hn; omega
        exact ih cs.length hlen cs rfl fuel acc (by simp at hfuel; omega)
      · cases fuel with
        | zero => simp at hfuel
        | succ f =>
          rw [strtok_char c cs hc, identifiers_char c cs hc]
          simp only [load_templates_loop, loadAll]
          split
          · rfl
          · have hle := length_drop_dropWhile_le (fun c => !decide (c = ',')) cs
            have hlen : ((cs.dropWhile (fun c => !decide (c = ','))).drop 1).length < n := by
              simp at hn; omega
            exact ih _ hlen _ rfl f _ (by simp at hfuel; omega)

theorem load_templates_eq_loadAll {R : Type} (cv : OpenCV R) (s : ImageBulFilterContext) :
    load_templates cv s =
      some ((loadAll cv (identifiers s.template_paths) s.templates).1,
        { s with templates := (loadAll cv (identifiers s.template_paths) s.templates).2 }) := by
  unfold load_templates
  simp only
  rw [load_templates_loop_eq cv _ s.template_paths rfl _ _ (Nat.lt_succ_self _)]
  rfl

theorem averror_einval_neg : AVERROR EINVAL < 0 := by decide

theorem averror_einval_ne_zero : AVERROR EINVAL ≠ 0 := by decide

theorem loadAll_fst {R : Type} (cv : OpenCV R) (ids : List (List Char)) :
    ∀ acc : List Mat, (loadAll cv ids acc).1 = 0 ∨ (loadAll cv ids acc).1 = AVERROR EINVAL := by
  induction ids with
  | nil => intro acc; left; rfl
  | cons id ids ih =>
    intro acc
    unfold loadAll
    split
    · right; rfl
    · exact ih _

theorem loadAll_fst_zero_iff {R : Type} (cv : OpenCV R) (ids : List (List Char)) :
    ∀ acc : List Mat,
      (loadAll cv ids acc).1 = 0 ↔ ∀ id ∈ ids, (cv.imread id).empty = false := by
  induction ids with
  | nil => intro acc; simp [loadAll]
  | cons id ids ih =>
    intro acc
    unfold loadAll
    by_cases h : (cv.imread id).empty = true
    · simp [h, averror_einval_ne_zero]
    · simp only [h, if_false, List.mem_cons, forall_eq_or_imp]
      simp at h
      simp [h, ih]

theorem loadAll_snd_of_ok {R : Type} (cv : OpenCV R) (ids : List (List Char)) :
    ∀ acc : List Mat, (∀ id ∈ ids, (cv.imread id).empty = false) →
      (loadAll cv ids acc).2 = acc ++ ids.map cv.imread := by
  induction ids with
  | nil => intro acc _; simp [loadAll]
  | cons id ids ih =>
    intro acc h
    have h1 : (cv.imread id).empty = false := h id (List.mem_cons_self _ _)
    have h2 : ∀ i ∈ ids, (cv.imread i).empty = false :=
      fun i hi => h i (List.mem_cons_of_mem _ hi)
    unfold loadAll
    simp [h1, ih _ h2]

theorem mat_dims_pos (m : Mat) (h : m.empty = false) : 0 < m.cols ∧ 0 < m.rows := by
  unfold Mat.empty Mat.total at h
  simp at h
  omega

theorem init_eq_loadAll {R : Type} (cv : OpenCV R) (s : ImageBulFilterContext) :
    init cv s =
      some (if (loadAll cv (identifiers s.template_paths) s.templates).1 < 0
              then AVERROR EINVAL else 0,
        { s with templates := (loadAll cv (identifiers s.template_paths) s.templates).2 }) := by
  unfold init
  rw [load_templates_eq_loadAll]
  simp only
  split <;> rfl

theorem identifiers_append_comma (p q : List Char) :
    identifiers (p ++ ',' :: q) = identifiers p ++ identifiers q := by
  have hf : ∀ p : List Char, fields (p ++ ',' :: q) = fields p ++ fields q := by
    intro p
    induction p with
    | nil => simp [fields]
    | cons c cs ih =>
      by_cases h : c = ','
      · subst h; simp [fields, ih]
      · cases hcs : fields cs with
        | nil => exact absurd hcs (fields_ne_nil cs)
        | cons f fs => simp [fields, if_neg h, ih, hcs]
  unfold identifiers
  rw [hf, List.filter_append]

theorem identifiers_eq_nil_iff (p : List Char) : identifiers p = [] ↔ ∀ c ∈ p, c = ',' := by
  induction p with
  | nil => simp [identifiers_nil]
  | cons c cs ih =>
    by_cases h : c = ','
    · subst h; simp [identifiers_comma, ih]
    · simp [identifiers_char c cs h, h]

/-! ## The decision loop -/

theorem admit_ne_drop (host : Host) (frame : AVFrame) :
    admitOutcome host frame ≠ dropOutcome frame := by
  simp [admitOutcome, dropOutcome]

theorem admit_ne_raised (host : Host) (frame : AVFrame) :
    admitOutcome host frame ≠ raisedOutcome := by
  simp [admitOutcome, raisedOutcome]

theorem drop_ne_raised (frame : AVFrame) : dropOutcome frame ≠ raisedOutcome := by
  simp [dropOutcome, raisedOutcome]

theorem F64.le_transitive {a b c : F64} (hab : F64.le a b = true) (hbc : F64.le b c = true) :
    F64.le a c = true := by
  cases a <;> cases b <;> cases c <;> simp [F64.le] at hab hbc ⊢
  exact le_trans hab hbc

theorem F64.le_or_le {a b : F64} (ha : a ≠ F64.nan) (hb : b ≠ F64.nan) :
    F64.le a b = true ∨ F64.le b a = true := by
  cases a <;> cases b <;> simp [F64.le] at ha hb ⊢
  exact le_total _ _

theorem filter_frame_loop_cons_none {R : Type} (cv : OpenCV R) (host : Host) (threshold : F64)
    (frame : AVFrame) (gray templ : Mat) (rest : List Mat)
    (h : maxValOf cv gray templ = none) :
    filter_frame_loop cv host threshold frame gray (templ :: rest) = raisedOutcome := by
  simp [filter_frame_loop, h, raisedOutcome]

theorem filter_frame_loop_cons_some {R : Type} (cv : OpenCV R) (host : Host) (threshold : F64)
    (frame : AVFrame) (gray templ : Mat) (rest : List Mat) (v : F64)
    (h : maxValOf cv gray templ = some v) :
    filter_frame_loop cv host threshold frame gray (templ :: rest) =
      if F64.ge v threshold = true then dropOutcome frame
      else filter_frame_loop cv host threshold frame gray rest := by
  simp [filter_frame_loop, h, dropOutcome]

theorem filter_frame_loop_of_defined {R : Type} (cv : OpenCV R) (host : Host) (threshold : F64)
    (frame : AVFrame) (gray : Mat) (ts : List Mat)
    (hdef : ∀ t ∈ ts, (maxValOf cv gray t).isSome = true) :
    filter_frame_loop cv host threshold frame gray ts =
      if ts.any (reaches cv gray threshold) = true then dropOutcome frame
      else admitOutcome host frame := by
  induction ts with
  | nil => simp [filter_frame_loop, admitOutcome]
  | cons t ts ih =>
    have ht := hdef t (List.mem_cons_self _ _)
    have hts : ∀ u ∈ ts, (maxValOf cv gray u).isSome = true :=
      fun u hu => hdef u (List.mem_cons_of_mem _ hu)
    obtain ⟨v, hv⟩ := Option.isSome_iff_exists.mp ht
    rw [filter_frame_loop_cons_some cv host threshold frame gray t ts v hv, ih hts]
    by_cases hge : F64.ge v threshold = true
    · simp [reaches, hv, hge]
    · simp [reaches, hv, hge]

theorem filter_frame_loop_trichotomy {R : Type} (cv : OpenCV R) (host : Host) (threshold : F64)
    (frame : AVFrame) (gray : Mat) (ts : List Mat) :
    filter_frame_loop cv host threshold frame gray ts = admitOutcome host frame ∨
      filter_frame_loop cv host threshold frame gray ts = dropOutcome frame ∨
      (filter_frame_loop cv host threshold frame gray ts = raisedOutcome ∧
        ∃ t ∈ ts, maxValOf cv gray t = none) := by
  induction ts with
  | nil => left; rfl
  | cons t ts ih =>
    cases hv : maxValOf cv gray t with
    | none =>
      right; right
      exact ⟨filter_frame_loop_cons_none cv host threshold frame gray t ts hv,
        t, List.mem_cons_self _ _, hv⟩
    | some v =>
      rw [filter_frame_loop_cons_some cv host threshold frame gray t ts v hv]
      by_cases hge : F64.ge v threshold = true
      · right; left; simp [hge]
      · simp only [hge, if_false]
        rcases ih with h | h | ⟨h, u, hu, hnone⟩
        · left; exact h
        · right; left; exact h
        · right; right; exact ⟨h, u, List.mem_cons_of_mem _ hu, hnone⟩

theorem filter_frame_loop_mono {R : Type} (cv : OpenCV R) (host : Host) (t1 t2 : F64)
    (frame : AVFrame) (gray : Mat) (ts : List Mat) (h : F64.le t1 t2 = true) :
    (filter_frame_loop cv host t1 frame gray ts = admitOutcome host frame →
      filter_frame_loop cv host t2 frame gray ts = admitOutcome host frame) ∧
    (filter_frame_loop cv host t2 frame gray ts = dropOutcome frame →
      filter_frame_loop cv host t1 frame gray ts = dropOutcome frame) := by
  induction ts with
  | nil =>
    refine ⟨fun _ => rfl, fun hd => ?_⟩
    exact absurd hd (admit_ne_drop host frame)
  | cons t ts ih =>
    cases hv : maxValOf cv gray t with
    | none =>
      rw [filter_frame_loop_cons_none cv host t1 frame gray t ts hv,
        filter_frame_loop_cons_none cv host t2 frame gray t ts hv]
      exact ⟨fun ha => absurd ha.symm (admit_ne_raised host frame),
        fun hd => absurd hd.symm (drop_ne_raised frame)⟩
    | some v =>
      rw [filter_frame_loop_cons_some cv host t1 frame gray t ts v hv,
        filter_frame_loop_cons_some cv host t2 frame gray t ts v hv]
      by_cases h1 : F64.ge v t1 = true
      · simp only [h1, if_true]
        exact ⟨fun ha => absurd ha.symm (admit_ne_drop host frame), fun _ => trivial⟩
      · have h2 : ¬ F64.ge v t2 = true := by
          intro h2
          exact h1 (F64.le_transitive h h2)
        simp only [h1, h2, if_false]
        exact ih

theorem filter_frame_loop_raise_after {R : Type} (cv : OpenCV R) (host : Host) (threshold : F64)
    (frame : AVFrame) (gray : Mat) (pre : List Mat) (t : Mat) (post : List Mat)
    (ht : maxValOf cv gray t = none)
    (hpre : ∀ u ∈ pre, (maxValOf cv gray u).isSome = true) :
    filter_frame_loop cv host threshold frame gray (pre ++ t :: post) =
      if pre.any (reaches cv gray threshold) = true then dropOutcome frame
      else raisedOutcome := by
  induction pre with
  | nil => simp [filter_frame_loop_cons_none cv host threshold frame gray t post ht]
  | cons u us ih =>
    have hu := hpre u (List.mem_cons_self _ _)
    have hus : ∀ w ∈ us, (maxValOf cv gray w).isSome = true :=
      fun w hw => hpre w (List.mem_cons_of_mem _ hw)
    obtain ⟨v, hv⟩ := Option.isSome_iff_exists.mp hu
    rw [List.cons_append,
      filter_frame_loop_cons_some cv host threshold frame gray u _ v hv, ih hus]
    by_cases hge : F64.ge v threshold = true
    · simp [reaches, hv, hge]
    · simp [reaches, hv, hge]

theorem filter_frame_of_gray {R : Type} (cv : OpenCV R) (host : Host)
    (s : ImageBulFilterContext) (frame : AVFrame) (gray : Mat)
    (hgray : cv.cvtColor (frameMat frame) = some gray) :
    filter_frame cv host s frame =
      filter_frame_loop cv host s.match_threshold frame gray s.templates := by
  simp [filter_frame, hgray]

theorem filter_frame_of_no_gray {R : Type} (cv : OpenCV R) (host : Host)
    (s : ImageBulFilterContext) (frame : AVFrame)
    (hgray : cv.cvtColor (frameMat frame) = none) :
    filter_frame cv host s frame = raisedOutcome := by
  simp [filter_frame, hgray, raisedOutcome]

theorem any_reaches_iff {R : Type} (cv : OpenCV R) (gray : Mat) (threshold : F64)
    (ts : List Mat) :
    ts.any (reaches cv gray threshold) = true ↔
      ∃ t ∈ ts, ∃ v, maxValOf cv gray t = some v ∧ F64.ge v threshold = true := by
  rw [List.any_eq_true]
  constructor
  · rintro ⟨t, ht, hr⟩
    refine ⟨t, ht, ?_⟩
    unfold reaches at hr
    cases hv : maxValOf cv gray t with
    | none => simp [hv] at hr
    | some v => exact ⟨v, rfl, by simpa [hv] using hr⟩
  · rintro ⟨t, ht, v, hv, hge⟩
    exact ⟨t, ht, by simp [reaches, hv, hge]⟩

/-! ## Template loading -/

/-- Claim C3: starting from an empty store, `load_templates` (and `init`)
succeeds exactly when every identifier of the configuration string (each of
its non-empty comma-separated fields) decodes to a non-empty image; on success the store holds the decoded images of the
identifiers, one for each, in configuration order, each with strictly positive
width and height; and if some identifier fails to decode, `load_templates`
and `init` both return `AVERROR(EINVAL)`. -/
theorem load_templates_all_or_nothing {R : Type} (cv : OpenCV R) (s : ImageBulFilterContext)
    (h0 : s.templates = []) :
    ((∃ s1, load_templates cv s = some (0, s1)) ↔
        ∀ id ∈ identifiers s.template_paths, (cv.imread id).empty = false) ∧
    ((∃ s1, init cv s = some (0, s1)) ↔
        ∀ id ∈ identifiers s.template_paths, (cv.imread id).empty = false) ∧
    (∀ s1, load_templates cv s = some (0, s1) →
        s1.templates = (identifiers s.template_paths).map cv.imread ∧
        ∀ t ∈ s1.templates, 0 < t.cols ∧ 0 < t.rows) ∧
    ((∃ id ∈ identifiers s.template_paths, (cv.imread id).empty = true) →
        (∃ s1, load_templates cv s = some (AVERROR EINVAL, s1)) ∧
        ∃ s2, init cv s = some (AVERROR EINVAL, s2)) := by
  have hload := load_templates_eq_loadAll cv s
  have hinit := init_eq_loadAll cv s
  have hiff := loadAll_fst_zero_iff cv (identifiers s.template_paths) s.templates
  have hcode := loadAll_fst cv (identifiers s.template_paths) s.templates
  refine ⟨?_, ?_, ?_, ?_⟩
  · rw [hload, ← hiff]
    constructor
    · rintro ⟨s1, h1⟩
      simp only [Option.some.injEq, Prod.mk.injEq] at h1
      exact h1.1
    · intro h
      exact ⟨_, by rw [h]⟩
  · rw [hinit, ← hiff]
    constructor
    · rintro ⟨s1, h1⟩
      simp only [Option.some.injEq, Prod.mk.injEq] at h1
      rcases hcode with hc | hc
      · exact hc
      · rw [hc, if_pos averror_einval_neg] at h1
        exact absurd h1.1 averror_einval_ne_zero
    · intro h
      exact ⟨_, by rw [h]; rfl⟩
  · intro s1 h1
    rw [hload] at h1
    simp only [Option.some.injEq, Prod.mk.injEq] at h1
    have hok := hiff.mp h1.1
    have hst : s1.templates = (identifiers s.template_paths).map cv.imread := by
      rw [← h1.2]
      simp only
      rw [loadAll_snd_of_ok cv _ _ hok, h0, List.nil_append]
    refine ⟨hst, ?_⟩
    intro t ht
    rw [hst, List.mem_map] at ht
    obtain ⟨id, hid, rfl⟩ := ht
    exact mat_dims_pos _ (hok id hid)
  · rintro ⟨id, hid, hempty⟩
    have hne : (loadAll cv (identifiers s.template_paths) s.templates).1 ≠ 0 := by
      intro hz
      have := hiff.mp hz id hid
      rw [hempty] at this
      exact Bool.noConfusion this
    have hc : (loadAll cv (identifiers s.template_paths) s.templates).1 = AVERROR EINVAL := by
      rcases hcode with hc | hc
      · exact absurd hc hne
      · exact hc
    exact ⟨⟨_, by rw [hload, hc]⟩, ⟨_, by rw [hinit, hc, if_pos averror_einval_neg]⟩⟩

/-- Claim C3, at a concrete input: the configuration `a,b` over the example
files, starting from an empty store. -/
theorem load_templates_all_or_nothing_witness :
    (demoCtx (F64.fin oneHalf) ['a', ',', 'b']).templates = [] ∧
    ((∃ s1, load_templates demoCv (demoCtx (F64.fin oneHalf) ['a', ',', 'b']) = some (0, s1)) ↔
      ∀ id ∈ identifiers (demoCtx (F64.fin oneHalf) ['a', ',', 'b']).template_paths,
        (demoCv.imread id).empty = false) :=
  ⟨rfl, (load_templates_all_or_nothing demoCv (demoCtx (F64.fin oneHalf) ['a', ',', 'b']) rfl).1⟩

/-- Claim C4, as stated, fails: `init` accepts the empty configuration string
and leaves the store empty. -/
theorem init_accepts_empty_configuration :
    init demoCv (demoCtx (F64.fin oneHalf) []) = some (0, demoCtx (F64.fin oneHalf) []) ∧
    (demoCtx (F64.fin oneHalf) []).templates = [] := by
  decide

/-- Claim C4, amended: starting from an empty store, a configuration string
without identifier (the empty string, or commas only) makes `init` succeed with
the store left empty; and whenever `init` succeeds the store has one template
for each identifier, so it is empty exactly when the string has no identifier. -/
theorem init_store_empty_iff_no_identifier {R : Type} (cv : OpenCV R)
    (s : ImageBulFilterContext) (h0 : s.templates = []) :
    (identifiers s.template_paths = [] → init cv s = some (0, s)) ∧
    (∀ s1, init cv s = some (0, s1) →
        s1.templates.length = (identifiers s.template_paths).length ∧
        (s1.templates = [] ↔ identifiers s.template_paths = [])) ∧
    (identifiers s.template_paths = [] ↔ ∀ c ∈ s.template_paths, c = ',') := by
  have hinit := init_eq_loadAll cv s
  have hiff := loadAll_fst_zero_iff cv (identifiers s.template_paths) s.templates
  have hcode := loadAll_fst cv (identifiers s.template_paths) s.templates
  refine ⟨?_, ?_, identifiers_eq_nil_iff _⟩
  · intro hnil
    rw [hinit, hnil]
    simp [loadAll]
  · intro s1 h1
    rw [hinit] at h1
    simp only [Option.some.injEq, Prod.mk.injEq] at h1
    have hz : (loadAll cv (identifiers s.template_paths) s.templates).1 = 0 := by
      rcases hcode with hc | hc
      · exact hc
      · rw [hc, if_pos averror_einval_neg] at h1
        exact absurd h1.1 averror_einval_ne_zero
    have hst : s1.templates = (identifiers s.template_paths).map cv.imread := by
      rw [← h1.2]
      simp only
      rw [loadAll_snd_of_ok cv _ _ (hiff.mp hz), h0, List.nil_append]
    rw [hst]
    simp

/-- Claim C4, amended, at a concrete input: the configuration `,,`. -/
theorem init_store_empty_iff_no_identifier_witness :
    (demoCtx (F64.fin oneHalf) [',', ',']).templates = [] ∧
    (identifiers (demoCtx (F64.fin oneHalf) [',', ',']).template_paths = [] →
      init demoCv (demoCtx (F64.fin oneHalf) [',', ',']) =
        some (0, demoCtx (F64.fin oneHalf) [',', ','])) :=
  ⟨rfl, (init_store_empty_iff_no_identifier demoCv (demoCtx (F64.fin oneHalf) [',', ',']) rfl).1⟩

/-- Claim C5, as stated, fails: the configuration `a,,b` has an empty
identifier between its two commas, and `load_templates` returns 0 with the
images of `a` and `b` in the store. -/
theorem load_templates_accepts_empty_identifier :
    [] ∈ fields ['a', ',', ',', 'b'] ∧
    loaded demoCv (demoCtx (F64.fin oneHalf) ['a', ',', ',', 'b']) =
      some (0, [demoTemplA, demoTemplDot]) := by
  decide

/-- Claim C5, amended: empty identifiers are skipped. `load_templates` returns
the code and the store obtained by loading the non-empty identifiers of the
string in order; so a doubled comma loads like a single one, and a leading or
a trailing comma changes nothing. -/
theorem load_templates_skips_empty_identifiers {R : Type} (cv : OpenCV R) (templates : List Mat)
    (threshold : F64) (p q : List Char) :
    loaded cv ⟨templates, threshold, p⟩ = some (loadAll cv (identifiers p) templates) ∧
    loaded cv ⟨templates, threshold, p ++ ',' :: ',' :: q⟩ =
      loaded cv ⟨templates, threshold, p ++ ',' :: q⟩ ∧
    loaded cv ⟨templates, threshold, ',' :: p⟩ = loaded cv ⟨templates, threshold, p⟩ ∧
    loaded cv ⟨templates, threshold, p ++ [',']⟩ = loaded cv ⟨templates, threshold, p⟩ := by
  have key : ∀ r : List Char,
      loaded cv ⟨templates, threshold, r⟩ = some (loadAll cv (identifiers r) templates) := by
    intro r
    unfold loaded
    rw [load_templates_eq_loadAll]
    rfl
  refine ⟨key p, ?_, ?_, ?_⟩
  · rw [key, key, identifiers_append_comma, identifiers_comma, identifiers_append_comma]
  · rw [key, key, identifiers_comma]
  · rw [key, key, identifiers_append_comma, identifiers_nil, List.append_nil]

theorem filter_frame_loop_raised_iff {R : Type} (cv : OpenCV R) (host : Host) (threshold : F64)
    (frame : AVFrame) (gray : Mat) (ts : List Mat) :
    filter_frame_loop cv host threshold frame gray ts = raisedOutcome ↔
      ∃ pre t post, ts = pre ++ t :: post ∧ maxValOf cv gray t = none ∧
        ∀ u ∈ pre, ∃ v, maxValOf cv gray u = some v ∧ F64.ge v threshold = false := by
  constructor
  · induction ts with
    | nil =>
      intro h
      exact absurd h (admit_ne_raised host frame)
    | cons t ts ih =>
      intro h
      cases hv : maxValOf cv gray t with
      | none => exact ⟨[], t, ts, rfl, hv, fun u hu => absurd hu (List.not_mem_nil u)⟩
      | some v =>
        rw [filter_frame_loop_cons_some cv host threshold frame gray t ts v hv] at h
        cases hge : F64.ge v threshold with
        | true =>
          rw [hge, if_pos rfl] at h
          exact absurd h (drop_ne_raised frame)
        | false =>
          rw [hge, if_neg (by decide)] at h
          obtain ⟨pre, t2, post, hts, hnone, hpre⟩ := ih h
          refine ⟨t :: pre, t2, post, by rw [hts, List.cons_append], hnone, ?_⟩
          intro u hu
          rcases List.mem_cons.mp hu with hu | hu
          · subst hu
            exact ⟨v, hv, hge⟩
          · exact hpre u hu
  · rintro ⟨pre, t, post, hts, hnone, hpre⟩
    have hsome : ∀ u ∈ pre, (maxValOf cv gray u).isSome = true := by
      intro u hu
      obtain ⟨v, hv, _⟩ := hpre u hu
      rw [hv]
      rfl
    have hany : ¬ pre.any (reaches cv gray threshold) = true := by
      rw [any_reaches_iff]
      rintro ⟨u, hu, v, hv, hge⟩
      obtain ⟨w, hw, hlow⟩ := hpre u hu
      rw [hv] at hw
      cases hw
      rw [hge] at hlow
      exact Bool.noConfusion hlow
    rw [hts, filter_frame_loop_raise_after cv host threshold frame gray pre t post hnone hsome,
      if_neg hany]

theorem filter_frame_loop_of_scores {R : Type} (cv : OpenCV R) (host : Host) (threshold : F64)
    (frame : AVFrame) (gray : Mat) :
    ∀ l1 l2 : List Mat, l1.map (maxValOf cv gray) = l2.map (maxValOf cv gray) →
      filter_frame_loop cv host threshold frame gray l1 =
        filter_frame_loop cv host threshold frame gray l2 := by
  intro l1
  induction l1 with
  | nil =>
    intro l2 h
    cases l2 with
    | nil => rfl
    | cons b l2 => exact absurd h (by simp)
  | cons a l1 ih =>
    intro l2 h
    cases l2 with
    | nil => exact absurd h (by simp)
    | cons b l2 =>
      simp only [List.map_cons, List.cons.injEq] at h
      cases hv : maxValOf cv gray a with
      | none =>
        rw [filter_frame_loop_cons_none cv host threshold frame gray a l1 hv,
          filter_frame_loop_cons_none cv host threshold frame gray b l2 (by rw [← h.1, hv])]
      | some v =>
        rw [filter_frame_loop_cons_some cv host threshold frame gray a l1 v hv,
          filter_frame_loop_cons_some cv host threshold frame gray b l2 v (by rw [← h.1, hv]),
          ih l2 h.2]

theorem filter_frame_loop_below {R : Type} (cv : OpenCV R) (host : Host) (threshold : F64)
    (frame : AVFrame) (gray : Mat) (pre rest : List Mat)
    (hpre : ∀ u ∈ pre, ∃ v, maxValOf cv gray u = some v ∧ F64.ge v threshold = false) :
    filter_frame_loop cv host threshold frame gray (pre ++ rest) =
      filter_frame_loop cv host threshold frame gray rest := by
  induction pre with
  | nil => rfl
  | cons u us ih =>
    obtain ⟨v, hv, hlow⟩ := hpre u (List.mem_cons_self _ _)
    rw [List.cons_append, filter_frame_loop_cons_some cv host threshold frame gray u _ v hv,
      hlow, if_neg (by decide)]
    exact ih (fun w hw => hpre w (List.mem_cons_of_mem _ hw))

theorem filter_frame_loop_skip {R : Type} (cv : OpenCV R) (host : Host) (threshold : F64)
    (frame : AVFrame) (gray : Mat) (pre : List Mat) (t : Mat) (post : List Mat) (v : F64)
    (hv : maxValOf cv gray t = some v) (hlow : F64.ge v threshold = false) :
    filter_frame_loop cv host threshold frame gray (pre ++ t :: post) =
      filter_frame_loop cv host threshold frame gray (pre ++ post) := by
  induction pre with
  | nil =>
    rw [List.nil_append, List.nil_append,
      filter_frame_loop_cons_some cv host threshold frame gray t post v hv, hlow,
      if_neg (by decide)]
  | cons u us ih =>
    cases hu : maxValOf cv gray u with
    | none =>
      rw [List.cons_append, List.cons_append,
        filter_frame_loop_cons_none cv host threshold frame gray u _ hu,
        filter_frame_loop_cons_none cv host threshold frame gray u _ hu]
    | some w =>
      rw [List.cons_append, List.cons_append,
        filter_frame_loop_cons_some cv host threshold frame gray u _ w hu,
        filter_frame_loop_cons_some cv host threshold frame gray u _ w hu, ih]

/-! ## The per-frame decision -/

/-- Claim C1: when the grey view is produced, the threshold is a number and the
best score of every stored template is computed and is a number, `filter_frame`
returns DROP (the frame released, `AVERROR(EAGAIN)` returned) exactly when some
stored template has best score `>=` the threshold, and ADMIT (the frame
forwarded) exactly when every stored template has best score `<` the threshold. -/
theorem filter_frame_decision {R : Type} (cv : OpenCV R) (host : Host)
    (s : ImageBulFilterContext) (frame : AVFrame) (gray : Mat)
    (hgray : cv.cvtColor (frameMat frame) = some gray)
    (hthr : s.match_threshold ≠ F64.nan)
    (hdef : ∀ t ∈ s.templates, ∃ v, maxValOf cv gray t = some v ∧ v ≠ F64.nan) :
    (filter_frame cv host s frame = dropOutcome frame ↔
        ∃ t ∈ s.templates, ∃ v, maxValOf cv gray t = some v ∧
          F64.ge v s.match_threshold = true) ∧
    (filter_frame cv host s frame = admitOutcome host frame ↔
        ∀ t ∈ s.templates, ∃ v, maxValOf cv gray t = some v ∧
          F64.lt v s.match_threshold = true) := by
  have hsome : ∀ t ∈ s.templates, (maxValOf cv gray t).isSome = true := by
    intro t ht
    obtain ⟨v, hv, _⟩ := hdef t ht
    simp [hv]
  rw [filter_frame_of_gray cv host s frame gray hgray,
    filter_frame_loop_of_defined cv host s.match_threshold frame gray s.templates hsome,
    ← any_reaches_iff]
  constructor
  · by_cases hany : s.templates.any (reaches cv gray s.match_threshold) = true
    · simp [hany]
    · simp only [hany, if_false]
      exact ⟨fun h => absurd h (admit_ne_drop host frame), fun h => absurd h (by simp)⟩
  · have hlt : (∀ t ∈ s.templates, ∃ v, maxValOf cv gray t = some v ∧
        F64.lt v s.match_threshold = true) ↔
        ¬ s.templates.any (reaches cv gray s.match_threshold) = true := by
      rw [any_reaches_iff]
      constructor
      · rintro hall ⟨t, ht, v, hv, hge⟩
        obtain ⟨w, hw, hlt⟩ := hall t ht
        rw [hv] at hw
        cases hw
        simp [F64.lt, F64.ge] at hlt hge
        rw [hge] at hlt
        exact Bool.noConfusion hlt.2
      · intro hno t ht
        obtain ⟨v, hv, hnan⟩ := hdef t ht
        refine ⟨v, hv, ?_⟩
        have hnge : ¬ F64.le s.match_threshold v = true := by
          intro hge
          exact hno ⟨t, ht, v, hv, hge⟩
        rcases F64.le_or_le hnan hthr with h | h
        · simp [F64.lt, h, hnge]
        · exact absurd h hnge
    rw [hlt]
    by_cases hany : s.templates.any (reaches cv gray s.match_threshold) = true
    · simp only [hany, if_true, not_true_eq_false, iff_false]
      exact fun h => admit_ne_drop host frame h.symm
    · simp [hany]

/-- Claim C1, at a concrete input: the checkerboard template against the
checkerboard frame, threshold 0.5. -/
theorem filter_frame_decision_witness :
    filter_frame demoCv demoHost ⟨[demoTemplA], F64.fin oneHalf, []⟩ demoFrame =
        dropOutcome demoFrame ↔
      ∃ t ∈ [demoTemplA], ∃ v, maxValOf demoCv demoGray t = some v ∧
        F64.ge v (F64.fin oneHalf) = true :=
  (filter_frame_decision demoCv demoHost ⟨[demoTemplA], F64.fin oneHalf, []⟩ demoFrame
    demoGray (by decide) (by decide)
    (fun t ht => by
      rw [List.mem_singleton] at ht
      subst ht
      exact ⟨F64.fin 1, by decide, by decide⟩)).1

/-- Claim C2, as stated, fails: with a stored template wider than the frame the
scoring call raises and `filter_frame` neither forwards nor releases the frame. -/
theorem filter_frame_neither_when_scoring_raises :
    HostEvent.forward demoFrame ∉
        (filter_frame demoCv demoHost ⟨[demoTemplWide], F64.fin oneHalf, []⟩ demoFrame).effects ∧
    HostEvent.unref demoFrame ∉
        (filter_frame demoCv demoHost ⟨[demoTemplWide], F64.fin oneHalf, []⟩ demoFrame).effects := by
  decide

/-- Claim C2, amended: `filter_frame` never both forwards and releases a frame.
Its outcome is one of three: the frame forwarded and not released (ADMIT), the
frame released and nothing forwarded (DROP), or neither. It performs neither
exactly when the grey conversion raises, or the scoring of a stored template
raises while every template stored before it was scored below the threshold;
so when these calls all succeed exactly one of the two actions is performed. -/
theorem filter_frame_one_action {R : Type} (cv : OpenCV R) (host : Host)
    (s : ImageBulFilterContext) (frame : AVFrame) :
    ((filter_frame cv host s frame).effects = [HostEvent.forward frame] ∨
      (filter_frame cv host s frame).effects = [HostEvent.unref frame] ∨
      (filter_frame cv host s frame).effects = []) ∧
    (filter_frame cv host s frame = admitOutcome host frame ∨
      filter_frame cv host s frame = dropOutcome frame ∨
      filter_frame cv host s frame = raisedOutcome) ∧
    ((filter_frame cv host s frame).effects = [] ↔
      filter_frame cv host s frame = raisedOutcome) ∧
    (filter_frame cv host s frame = raisedOutcome ↔
      cv.cvtColor (frameMat frame) = none ∨
      ∃ gray, cv.cvtColor (frameMat frame) = some gray ∧
        ∃ pre t post, s.templates = pre ++ t :: post ∧ maxValOf cv gray t = none ∧
          ∀ u ∈ pre, ∃ v, maxValOf cv gray u = some v ∧
            F64.ge v s.match_threshold = false) ∧
    (∀ gray, cv.cvtColor (frameMat frame) = some gray →
      (∀ t ∈ s.templates, (maxValOf cv gray t).isSome = true) →
      filter_frame cv host s frame = admitOutcome host frame ∨
        filter_frame cv host s frame = dropOutcome frame) := by
  have htri : filter_frame cv host s frame = admitOutcome host frame ∨
      filter_frame cv host s frame = dropOutcome frame ∨
      filter_frame cv host s frame = raisedOutcome := by
    cases hgray : cv.cvtColor (frameMat frame) with
    | none => exact Or.inr (Or.inr (filter_frame_of_no_gray cv host s frame hgray))
    | some gray =>
      rw [filter_frame_of_gray cv host s frame gray hgray]
      rcases filter_frame_loop_trichotomy cv host s.match_threshold frame gray s.templates
        with h | h | ⟨h, _⟩
      · exact Or.inl h
      · exact Or.inr (Or.inl h)
      · exact Or.inr (Or.inr h)
  refine ⟨?_, htri, ?_, ?_, ?_⟩
  · rcases htri with h | h | h
    · left; rw [h]; rfl
    · right; left; rw [h]; rfl
    · right; right; rw [h]; rfl
  · constructor
    · intro he
      rcases htri with h | h | h
      · rw [h] at he
        exact absurd he (by simp [admitOutcome])
      · rw [h] at he
        exact absurd he (by simp [dropOutcome])
      · exact h
    · intro h
      rw [h]
      rfl
  · cases hgray : cv.cvtColor (frameMat frame) with
    | none =>
      rw [filter_frame_of_no_gray cv host s frame hgray]
      exact ⟨fun _ => Or.inl rfl, fun _ => rfl⟩
    | some gray =>
      rw [filter_frame_of_gray cv host s frame gray hgray,
        filter_frame_loop_raised_iff cv host s.match_threshold frame gray s.templates]
      constructor
      · intro h
        exact Or.inr ⟨gray, rfl, h⟩
      · rintro (h | ⟨g, hg, h⟩)
        · exact Option.noConfusion h
        · cases hg
          exact h
  · intro gray hgray hdef
    rw [filter_frame_of_gray cv host s frame gray hgray,
      filter_frame_loop_of_defined cv host s.match_threshold frame gray s.templates hdef]
    by_cases hany : s.templates.any (reaches cv gray s.match_threshold) = true
    · right; rw [if_pos hany]
    · left; rw [if_neg hany]

/-- Claim C2, amended, at concrete inputs: a store whose only template fits the
frame, and a store in which a too-wide template follows a template scored
below the threshold. -/
theorem filter_frame_one_action_witness :
    (filter_frame demoCv demoHost ⟨[demoTemplDot], F64.fin oneHalf, []⟩ demoFrame =
        admitOutcome demoHost demoFrame ∨
      filter_frame demoCv demoHost ⟨[demoTemplDot], F64.fin oneHalf, []⟩ demoFrame =
        dropOutcome demoFrame) ∧
    filter_frame demoCv demoHost ⟨[demoTemplDot, demoTemplWide], F64.fin oneHalf, []⟩ demoFrame =
      raisedOutcome :=
  ⟨(filter_frame_one_action demoCv demoHost ⟨[demoTemplDot], F64.fin oneHalf, []⟩
      demoFrame).2.2.2.2 demoGray (by decide) (by decide),
    (filter_frame_one_action demoCv demoHost ⟨[demoTemplDot, demoTemplWide], F64.fin oneHalf, []⟩
      demoFrame).2.2.2.1.mpr
      (Or.inr ⟨demoGray, by decide, [demoTemplDot], demoTemplWide, [], rfl, by decide,
        fun u hu => by
          rw [List.mem_singleton] at hu
          subst hu
          exact ⟨F64.fin 0, by decide, by decide⟩⟩)⟩

/-- Claim C6, as stated, fails: the store holds a template wider than the
frame, and `filter_frame` returns DROP on the template stored before it. -/
theorem filter_frame_drop_despite_oversize_template :
    demoFrame.width < demoTemplWide.cols ∧
    demoTemplWide ∈ [demoTemplA, demoTemplWide] ∧
    filter_frame demoCv demoHost ⟨[demoTemplA, demoTemplWide], F64.fin oneHalf, []⟩ demoFrame =
      dropOutcome demoFrame := by
  decide

/-- Claim C6, amended: for a stored template wider or taller than the frame,
`filter_frame` does not detect the size mismatch; its outcome is the one any
template with the same scoring result gives in the same place. When a template
stored before it reaches the threshold (those before that one scored below
it), the frame is dropped whatever the scoring of the oversize template would
do. When the templates stored before it are all scored below the threshold:
if the scoring of the oversize template raises, the exception leaves
`filter_frame` (no ADMIT, no DROP, the frame neither forwarded nor released);
if it is scored and reaches the threshold, the frame is dropped; if it is
scored below the threshold and so are all templates stored after it, the
frame is forwarded. -/
theorem filter_frame_oversize_template {R : Type} (cv : OpenCV R) (host : Host)
    (s : ImageBulFilterContext) (frame : AVFrame) (gray : Mat)
    (pre : List Mat) (t : Mat) (post : List Mat)
    (hover : frame.width < t.cols ∨ frame.height < t.rows)
    (hgray : cv.cvtColor (frameMat frame) = some gray)
    (hstore : s.templates = pre ++ t :: post) :
    (∀ t2, maxValOf cv gray t2 = maxValOf cv gray t →
      filter_frame cv host ⟨pre ++ t2 :: post, s.match_threshold, s.template_paths⟩ frame =
        filter_frame cv host s frame) ∧
    (∀ p1 u p2, pre = p1 ++ u :: p2 →
      (∀ w ∈ p1, ∃ v, maxValOf cv gray w = some v ∧ F64.ge v s.match_threshold = false) →
      (∃ v, maxValOf cv gray u = some v ∧ F64.ge v s.match_threshold = true) →
      filter_frame cv host s frame = dropOutcome frame) ∧
    ((∀ u ∈ pre, ∃ v, maxValOf cv gray u = some v ∧ F64.ge v s.match_threshold = false) →
      (maxValOf cv gray t = none → filter_frame cv host s frame = raisedOutcome) ∧
      (∀ v, maxValOf cv gray t = some v → F64.ge v s.match_threshold = true →
        filter_frame cv host s frame = dropOutcome frame) ∧
      (∀ v, maxValOf cv gray t = some v → F64.ge v s.match_threshold = false →
        (∀ u ∈ post, ∃ w, maxValOf cv gray u = some w ∧
          F64.ge w s.match_threshold = false) →
        filter_frame cv host s frame = admitOutcome host frame)) := by
  have _hsize := hover
  rw [filter_frame_of_gray cv host s frame gray hgray, hstore]
  refine ⟨?_, ?_, ?_⟩
  · intro t2 h2
    rw [filter_frame_of_gray cv host _ frame gray hgray]
    apply filter_frame_loop_of_scores
    simp only [List.map_append, List.map_cons, h2]
  · rintro p1 u p2 hp hlow ⟨v, hv, hge⟩
    rw [hp, List.append_assoc,
      filter_frame_loop_below cv host s.match_threshold frame gray p1 _ hlow,
      List.cons_append,
      filter_frame_loop_cons_some cv host s.match_threshold frame gray u _ v hv, hge,
      if_pos rfl]
  · intro hlow
    rw [filter_frame_loop_below cv host s.match_threshold frame gray pre _ hlow]
    refine ⟨?_, ?_, ?_⟩
    · intro hnone
      exact filter_frame_loop_cons_none cv host s.match_threshold frame gray t post hnone
    · intro v hv hge
      rw [filter_frame_loop_cons_some cv host s.match_threshold frame gray t post v hv, hge,
        if_pos rfl]
    · intro v hv hnot hpost
      rw [filter_frame_loop_cons_some cv host s.match_threshold frame gray t post v hv, hnot,
        if_neg (by decide)]
      have h := filter_frame_loop_below cv host s.match_threshold frame gray post [] hpost
      rw [List.append_nil] at h
      rw [h]
      rfl

/-- Claim C6, amended, at concrete inputs: a 3x3 template on the 2x2 frame is
scored below the threshold and the frame is forwarded; a 1x3 template stored
after a template scored below the threshold makes the scoring call raise. -/
theorem filter_frame_oversize_template_witness :
    (demoFrame.width < demoTemplBig.cols ∨ demoFrame.height < demoTemplBig.rows) ∧
    filter_frame demoCv demoHost ⟨[demoTemplBig], F64.fin oneHalf, []⟩ demoFrame =
      admitOutcome demoHost demoFrame ∧
    (demoFrame.width < demoTemplWide.cols ∨ demoFrame.height < demoTemplWide.rows) ∧
    filter_frame demoCv demoHost ⟨[demoTemplDot, demoTemplWide], F64.fin oneHalf, []⟩ demoFrame =
      raisedOutcome :=
  ⟨by decide,
    ((filter_frame_oversize_template demoCv demoHost ⟨[demoTemplBig], F64.fin oneHalf, []⟩
      demoFrame demoGray [] demoTemplBig [] (by decide) (by decide) rfl).2.2
      (fun u hu => absurd hu (List.not_mem_nil u))).2.2 (F64.fin 0) (by decide) (by decide)
      (fun u hu => absurd hu (List.not_mem_nil u)),
    by decide,
    ((filter_frame_oversize_template demoCv demoHost
      ⟨[demoTemplDot, demoTemplWide], F64.fin oneHalf, []⟩
      demoFrame demoGray [demoTemplDot] demoTemplWide [] (by decide) (by decide) rfl).2.2
      (fun u hu => by
        rw [List.mem_singleton] at hu
        subst hu
        exact ⟨F64.fin 0, by decide, by decide⟩)).1 (by decide)⟩

/-- Claim C7: for thresholds `t1 <= t2`, the same frame and the same store, an
ADMIT at `t1` is an ADMIT at `t2`, and a DROP at `t2` is a DROP at `t1`. -/
theorem filter_frame_threshold_monotone {R : Type} (cv : OpenCV R) (host : Host)
    (templates : List Mat) (paths : List Char) (frame : AVFrame) (t1 t2 : F64)
    (h : F64.le t1 t2 = true) :
    (filter_frame cv host ⟨templates, t1, paths⟩ frame = admitOutcome host frame →
      filter_frame cv host ⟨templates, t2, paths⟩ frame = admitOutcome host frame) ∧
    (filter_frame cv host ⟨templates, t2, paths⟩ frame = dropOutcome frame →
      filter_frame cv host ⟨templates, t1, paths⟩ frame = dropOutcome frame) := by
  cases hgray : cv.cvtColor (frameMat frame) with
  | none =>
    rw [filter_frame_of_no_gray cv host _ frame hgray,
      filter_frame_of_no_gray cv host _ frame hgray]
    exact ⟨fun ha => absurd ha.symm (admit_ne_raised host frame),
      fun hd => absurd hd.symm (drop_ne_raised frame)⟩
  | some gray =>
    rw [filter_frame_of_gray cv host _ frame gray hgray,
      filter_frame_of_gray cv host _ frame gray hgray]
    exact filter_frame_loop_mono cv host t1 t2 frame gray templates h

/-- Claim C7, at a concrete input: thresholds 0.5 and 1 on the checkerboard. -/
theorem filter_frame_threshold_monotone_witness :
    F64.le (F64.fin oneHalf) (F64.fin 1) = true ∧
    (filter_frame demoCv demoHost ⟨[demoTemplA], F64.fin 1, []⟩ demoFrame =
        dropOutcome demoFrame →
      filter_frame demoCv demoHost ⟨[demoTemplA], F64.fin oneHalf, []⟩ demoFrame =
        dropOutcome demoFrame) :=
  ⟨by decide,
    (filter_frame_threshold_monotone demoCv demoHost [demoTemplA] [] demoFrame
      (F64.fin oneHalf) (F64.fin 1) (by decide)).2⟩

/-- Claim C8, as stated, fails: with the matching template first the frame is
dropped, with the too-wide template first the scoring call raises. -/
theorem filter_frame_order_matters_when_scoring_raises :
    List.Perm [demoTemplA, demoTemplWide] [demoTemplWide, demoTemplA] ∧
    filter_frame demoCv demoHost ⟨[demoTemplA, demoTemplWide], F64.fin oneHalf, []⟩ demoFrame ≠
      filter_frame demoCv demoHost ⟨[demoTemplWide, demoTemplA], F64.fin oneHalf, []⟩ demoFrame :=
  ⟨List.Perm.swap _ _ _, by decide⟩

/-- Claim C8, amended: when the scoring of every stored template succeeds, the
outcome of `filter_frame` (ADMIT or DROP) is the same for every permutation of
the stored templates. -/
theorem filter_frame_perm {R : Type} (cv : OpenCV R) (host : Host) (frame : AVFrame)
    (threshold : F64) (l1 l2 : List Mat) (p1 p2 : List Char)
    (hperm : List.Perm l1 l2)
    (hdef : ∀ gray, cv.cvtColor (frameMat frame) = some gray →
      ∀ t ∈ l1, (maxValOf cv gray t).isSome = true) :
    filter_frame cv host ⟨l1, threshold, p1⟩ frame =
      filter_frame cv host ⟨l2, threshold, p2⟩ frame := by
  cases hgray : cv.cvtColor (frameMat frame) with
  | none =>
    rw [filter_frame_of_no_gray cv host _ frame hgray,
      filter_frame_of_no_gray cv host _ frame hgray]
  | some gray =>
    have h1 := hdef gray hgray
    have h2 : ∀ t ∈ l2, (maxValOf cv gray t).isSome = true :=
      fun t ht => h1 t (hperm.mem_iff.mpr ht)
    rw [filter_frame_of_gray cv host _ frame gray hgray,
      filter_frame_of_gray cv host _ frame gray hgray,
      filter_frame_loop_of_defined cv host threshold frame gray l1 h1,
      filter_frame_loop_of_defined cv host threshold frame gray l2 h2]
    have hany : l1.any (reaches cv gray threshold) = l2.any (reaches cv gray threshold) := by
      rw [Bool.eq_iff_iff, List.any_eq_true, List.any_eq_true]
      constructor
      · rintro ⟨t, ht, hr⟩
        exact ⟨t, hperm.mem_iff.mp ht, hr⟩
      · rintro ⟨t, ht, hr⟩
        exact ⟨t, hperm.mem_iff.mpr ht, hr⟩
    simp only [hany]

/-- Claim C8, amended, at a concrete input: two templates that both fit the frame. -/
theorem filter_frame_perm_witness :
    List.Perm [demoTemplDot, demoTemplA] [demoTemplA, demoTemplDot] ∧
    filter_frame demoCv demoHost ⟨[demoTemplDot, demoTemplA], F64.fin oneHalf, []⟩ demoFrame =
      filter_frame demoCv demoHost ⟨[demoTemplA, demoTemplDot], F64.fin oneHalf, []⟩ demoFrame :=
  ⟨List.Perm.swap _ _ _,
    filter_frame_perm demoCv demoHost demoFrame (F64.fin oneHalf)
      [demoTemplDot, demoTemplA] [demoTemplA, demoTemplDot] [] [] (List.Perm.swap _ _ _)
      (fun gray hg => by
        have hg2 : gray = demoGray := by
          have h0 : demoCv.cvtColor (frameMat demoFrame) =
              some demoGray := by decide
          rw [h0] at hg
          exact (Option.some.inj hg).symm
        subst hg2
        decide)⟩

/-- Claim C9, as stated, fails: `init` accepts the empty configuration string,
and with the resulting store and threshold 0.0 the frame is forwarded. -/
theorem filter_frame_admits_at_zero_threshold :
    init demoCv (demoCtx (F64.fin 0) []) = some (0, demoCtx (F64.fin 0) []) ∧
    filter_frame demoCv demoHost (demoCtx (F64.fin 0) []) demoFrame =
      admitOutcome demoHost demoFrame := by
  decide

/-- Claim C9, amended: with threshold 0.0, when the grey view is produced and
every stored template is scored, `filter_frame` returns DROP exactly when some
stored template has best score `>= 0.0`, and ADMIT otherwise; on the empty
store it returns ADMIT. -/
theorem filter_frame_threshold_zero {R : Type} (cv : OpenCV R) (host : Host)
    (s : ImageBulFilterContext) (frame : AVFrame) (gray : Mat)
    (hgray : cv.cvtColor (frameMat frame) = some gray)
    (hzero : s.match_threshold = F64.fin 0)
    (hdef : ∀ t ∈ s.templates, (maxValOf cv gray t).isSome = true) :
    (filter_frame cv host s frame = dropOutcome frame ↔
        ∃ t ∈ s.templates, ∃ v, maxValOf cv gray t = some v ∧ F64.ge v (F64.fin 0) = true) ∧
    (filter_frame cv host s frame = admitOutcome host frame ↔
        ¬ ∃ t ∈ s.templates, ∃ v, maxValOf cv gray t = some v ∧ F64.ge v (F64.fin 0) = true) ∧
    (s.templates = [] → filter_frame cv host s frame = admitOutcome host frame) := by
  rw [filter_frame_of_gray cv host s frame gray hgray,
    filter_frame_loop_of_defined cv host s.match_threshold frame gray s.templates hdef,
    hzero, ← any_reaches_iff]
  by_cases hany : s.templates.any (reaches cv gray (F64.fin 0)) = true
  · rw [if_pos hany]
    refine ⟨⟨fun _ => hany, fun _ => rfl⟩,
      ⟨fun h => absurd h.symm (admit_ne_drop host frame), fun h => absurd hany h⟩, ?_⟩
    intro hnil
    rw [hnil] at hany
    exact Bool.noConfusion hany
  · rw [if_neg hany]
    exact ⟨⟨fun h => absurd h (admit_ne_drop host frame), fun h => absurd h hany⟩,
      ⟨fun _ => hany, fun _ => rfl⟩, fun _ => rfl⟩

/-- Claim C9, amended, at a concrete input: the checkerboard template at threshold 0.0. -/
theorem filter_frame_threshold_zero_witness :
    filter_frame demoCv demoHost ⟨[demoTemplA], F64.fin 0, []⟩ demoFrame =
        dropOutcome demoFrame ↔
      ∃ t ∈ [demoTemplA], ∃ v, maxValOf demoCv demoGray t = some v ∧
        F64.ge v (F64.fin 0) = true :=
  (filter_frame_threshold_zero demoCv demoHost ⟨[demoTemplA], F64.fin 0, []⟩ demoFrame
    demoGray (by decide) rfl (by decide)).1

/-- Claim C10, as stated, fails: with a scorer that has no zero-variance test,
the uniform 1x1 template is scored 1.0 on a frame showing its pixel, and at
threshold 0.5 the frame is dropped; `filter_frame` adds no fallback of its own. -/
theorem filter_frame_drops_on_uniform_template :
    demoTemplFlat.uniform = true ∧
    F64.lt (F64.fin 0) (F64.fin oneHalf) = true ∧
    maxValOf plainCv demoGray demoTemplFlat = some (F64.fin 1) ∧
    filter_frame plainCv demoHost ⟨[demoTemplFlat], F64.fin oneHalf, []⟩ demoFrame =
      dropOutcome demoFrame := by
  decide

/-- Claim C10, amended: `filter_frame` has no fallback of its own for a
template of uniform intensity; the score it compares is the `maxVal` that the
scoring calls give. For every threshold > 0: when that score is 0.0 the
template does not reach the threshold and the outcome is the one of the store
without it, so it never causes a DROP; when that score reaches the threshold
and the templates stored before it were scored below it, the frame is dropped. -/
theorem filter_frame_uniform_template {R : Type} (cv : OpenCV R) (host : Host)
    (frame : AVFrame) (gray : Mat) (threshold : F64) (paths : List Char)
    (pre : List Mat) (t : Mat) (post : List Mat)
    (huniform : t.uniform = true)
    (hthr : F64.lt (F64.fin 0) threshold = true)
    (hgray : cv.cvtColor (frameMat frame) = some gray) :
    (maxValOf cv gray t = some (F64.fin 0) →
      reaches cv gray threshold t = false ∧
      filter_frame cv host ⟨pre ++ t :: post, threshold, paths⟩ frame =
        filter_frame cv host ⟨pre ++ post, threshold, paths⟩ frame) ∧
    (∀ v, maxValOf cv gray t = some v → F64.ge v threshold = true →
      (∀ u ∈ pre, ∃ w, maxValOf cv gray u = some w ∧ F64.ge w threshold = false) →
      filter_frame cv host ⟨pre ++ t :: post, threshold, paths⟩ frame = dropOutcome frame) := by
  have _huni := huniform
  have hlow : F64.ge (F64.fin 0) threshold = false := by
    unfold F64.lt at hthr
    unfold F64.ge
    cases hle : F64.le threshold (F64.fin 0) with
    | false => rfl
    | true =>
      rw [hle] at hthr
      simp at hthr
  rw [filter_frame_of_gray cv host _ frame gray hgray,
    filter_frame_of_gray cv host _ frame gray hgray]
  refine ⟨?_, ?_⟩
  · intro h0
    refine ⟨?_, filter_frame_loop_skip cv host threshold frame gray pre t post (F64.fin 0) h0 hlow⟩
    unfold reaches
    rw [h0]
    exact hlow
  · intro v hv hge hpre
    simp only
    rw [filter_frame_loop_below cv host threshold frame gray pre _ hpre,
      filter_frame_loop_cons_some cv host threshold frame gray t post v hv, hge, if_pos rfl]

/-- Claim C10, amended, at a concrete input: the uniform 1x1 template scored
0.0 by the example scorer, stored before the checkerboard, threshold 0.5. -/
theorem filter_frame_uniform_template_witness :
    demoTemplFlat.uniform = true ∧
    F64.lt (F64.fin 0) (F64.fin oneHalf) = true ∧
    maxValOf demoCv demoGray demoTemplFlat = some (F64.fin 0) ∧
    reaches demoCv demoGray (F64.fin oneHalf) demoTemplFlat = false ∧
    filter_frame demoCv demoHost ⟨[] ++ demoTemplFlat :: [demoTemplA], F64.fin oneHalf, []⟩
        demoFrame =
      filter_frame demoCv demoHost ⟨[] ++ [demoTemplA], F64.fin oneHalf, []⟩ demoFrame :=
  ⟨by decide, by decide, by decide,
    (filter_frame_uniform_template demoCv demoHost demoFrame demoGray (F64.fin oneHalf) []
      [] demoTemplFlat [demoTemplA] (by decide) (by decide) (by decide)).1 (by decide)⟩

end ImageBul
